import Mathlib

/-!
Verification of the runner discovery and readiness-polling routine.

This file gives a shallow embedding of the `getRunner` routine of the
repository (source file `src/unnamed/part_000`):

```
export async function getRunner(runnerId: string): Promise<Runner> {
    const isRender = process.env[IS_RENDER] === true;
    const runner = isRender ? await RenderRunner.get(runnerId) : await LocalRunner.get(runnerId);

    // Wait for runner to start and be healthy
    const timeoutMs = isRender ? 90000 : 10000;
    let healthCheck = false;
    let startTime = Date.now();
    while (!healthCheck && Date.now() - startTime < timeoutMs) {
        try {
            await runner.client.health.query();
            healthCheck = true;
        } catch (err) {
            await new Promise((resolve) => setTimeout(resolve, 1000));
        }
    }
    if (!healthCheck) {
        throw new Error(...);   // message built from runnerId and timeoutMs
    }
    return runner;
}
```

Modelling choices:

* The ambient collaborators (the environment variable `IS_RENDER`, the two
  factories `LocalRunner` / `RenderRunner`) are packaged in a `World` record.
* A runner handle is modelled by the schedule of outcomes of its successive
  `client.health.query()` calls: the k-th query either resolves (`Except.ok`)
  or rejects with some error payload (`Except.error`).
* Time: each `setTimeout(..., 1000)` advances the clock by exactly 1000 ms
  and the health queries themselves are instantaneous, so on entry to the
  k-th loop iteration `Date.now() - startTime = 1000 * k`.  This is the
  idealized timing model the specification itself uses when it talks about
  the Nth attempt and the timeout window.
* Every observable action (factory invocation, health query, sleep, handle
  teardown) is recorded in a trace of `Event`s, so that claims about which
  collaborators are and are not invoked can be stated.
* Exceptions are modelled with `Except`; `getRunner` either returns the
  handle or one of the two error shapes that can escape it.
-/

set_option autoImplicit false

namespace NangoRunner

/-- The process environment, restricted to the single variable the routine
reads.  `none` models an unset variable. -/
structure Env where
  IS_RENDER : Option String

/-- Deployment-mode flag: `process.env[IS_RENDER] === true` (exact string
comparison against "true"). -/
def isRender (env : Env) : Bool :=
  env.IS_RENDER == some "true"

/-- A runner handle.  `health k` is the outcome of the k-th call to
`runner.client.health.query()` on this handle: `Except.ok ()` when the query
resolves, `Except.error e` when it rejects with error payload `e`.  The
handle also has a teardown capability `stop()`; whether it is invoked is
tracked in the event trace. -/
structure Runner where
  health : Nat → Except String Unit

/-- A runner factory (`LocalRunner` or `RenderRunner`): `get id` either
yields a handle or throws. -/
structure RunnerFactory where
  get : String → Except String Runner

/-- Which of the two factories an invocation went to. -/
inductive FactoryKind
  | LocalRunner
  | RenderRunner
deriving DecidableEq, Repr

/-- Observable actions of the routine. -/
inductive Event
  /-- invocation of `LocalRunner.get` or `RenderRunner.get` -/
  | factoryCall (f : FactoryKind)
  /-- the k-th `runner.client.health.query()` call; `ok` records whether it
  resolved -/
  | healthQuery (k : Nat) (ok : Bool)
  /-- an `await new Promise((resolve) => setTimeout(resolve, ms))` -/
  | sleep (ms : Nat)
  /-- invocation of the handle teardown capability `runner.stop()` -/
  | stop
deriving DecidableEq, Repr

/-- The ambient world `getRunner` runs in: the process environment and the
two collaborator factories. -/
structure World where
  env : Env
  LocalRunner : RunnerFactory
  RenderRunner : RunnerFactory

/-- Errors that can escape `getRunner`. -/
inductive GetRunnerError
  /-- an error thrown by the selected factory `get` call, propagated as-is -/
  | factoryError (e : String)
  /-- the timeout-exhaustion error; its message is built from the runner
  identifier and the timeout value in milliseconds, so the error carries
  both -/
  | RunnerNotHealthy (runnerId : String) (timeoutMs : Nat)
deriving DecidableEq, Repr

/-- Whether the k-th health query on this schedule resolves. -/
def healthOk (health : Nat → Except String Unit) (k : Nat) : Bool :=
  match health k with
  | Except.ok _ => true
  | Except.error _ => false

/-- The polling loop of `getRunner`:
`while (!healthCheck && Date.now() - startTime < timeoutMs) { try ... catch { sleep 1000 } }`.
`elapsed` is `Date.now() - startTime` and `k` counts the health queries made
so far.  Returns the trace of events of the loop together with the final
value of `healthCheck`. -/
def poll (health : Nat → Except String Unit) (timeoutMs : Nat)
    (elapsed : Nat) (k : Nat) : List Event × Bool :=
  if _h : elapsed < timeoutMs then
    match health k with
    | Except.ok _ => ([Event.healthQuery k true], true)
    | Except.error _ =>
        let r := poll health timeoutMs (elapsed + 1000) (k + 1)
        (Event.healthQuery k false :: Event.sleep 1000 :: r.1, r.2)
  else
    ([], false)
termination_by timeoutMs - elapsed
decreasing_by omega

/-- Shallow embedding of `getRunner`.  Returns the trace of observable
events together with the result (the handle, or the error thrown). -/
def getRunner (w : World) (runnerId : String) :
    List Event × Except GetRunnerError Runner :=
  let isR := isRender w.env
  let fk : FactoryKind :=
    if isR then FactoryKind.RenderRunner else FactoryKind.LocalRunner
  match (if isR then w.RenderRunner.get runnerId else w.LocalRunner.get runnerId) with
  | Except.error e =>
      ([Event.factoryCall fk], Except.error (GetRunnerError.factoryError e))
  | Except.ok runner =>
      let timeoutMs : Nat := if isR then 90000 else 10000
      let r := poll runner.health timeoutMs 0 0
      if r.2 then
        (Event.factoryCall fk :: r.1, Except.ok runner)
      else
        (Event.factoryCall fk :: r.1,
          Except.error (GetRunnerError.RunnerNotHealthy runnerId timeoutMs))

/-! ### Concrete worlds used for witnesses -/

/-- A handle whose every health query resolves. -/
def healthyRunner : Runner :=
  { health := fun _ => Except.ok () }

/-- A handle whose every health query rejects. -/
def unhealthyRunner : Runner :=
  { health := fun _ => Except.error "ECONNREFUSED" }

/-- A handle whose first two health queries reject and whose later queries
resolve. -/
def lateRunner : Runner :=
  { health := fun k => if k < 2 then Except.error "ETIMEDOUT" else Except.ok () }

/-- Local mode, healthy local runner. -/
def wLocalHealthy : World :=
  { env := { IS_RENDER := none }
    LocalRunner := { get := fun _ => Except.ok healthyRunner }
    RenderRunner := { get := fun _ => Except.error "render factory must not be called" } }

/-- Local mode, never-healthy local runner. -/
def wLocalUnhealthy : World :=
  { env := { IS_RENDER := none }
    LocalRunner := { get := fun _ => Except.ok unhealthyRunner }
    RenderRunner := { get := fun _ => Except.error "render factory must not be called" } }

/-- Render mode, healthy render runner. -/
def wRenderHealthy : World :=
  { env := { IS_RENDER := some "true" }
    LocalRunner := { get := fun _ => Except.error "local factory must not be called" }
    RenderRunner := { get := fun _ => Except.ok healthyRunner } }

/-- Local mode, runner healthy on the third attempt. -/
def wLocalLate : World :=
  { env := { IS_RENDER := none }
    LocalRunner := { get := fun _ => Except.ok lateRunner }
    RenderRunner := { get := fun _ => Except.error "render factory must not be called" } }

/-- Local mode, the local factory itself throws. -/
def wLocalFactoryFails : World :=
  { env := { IS_RENDER := none }
    LocalRunner := { get := fun _ => Except.error "spawn failed" }
    RenderRunner := { get := fun _ => Except.error "render factory must not be called" } }

/-! ### Trace shapes -/

/-- The trace of `n` consecutive failed polling iterations starting at
attempt `j`: each is a rejected health query followed by a 1000 ms sleep. -/
def failSteps (j n : Nat) : List Event :=
  (List.range' j n).flatMap fun i => [Event.healthQuery i false, Event.sleep 1000]

theorem failSteps_zero (j : Nat) : failSteps j 0 = [] := rfl

theorem failSteps_succ (j n : Nat) :
    failSteps j (n + 1) =
      Event.healthQuery j false :: Event.sleep 1000 :: failSteps (j + 1) n := by
  simp [failSteps, List.range'_succ]

theorem mem_failSteps {e : Event} {j n : Nat} :
    e ∈ failSteps j n ↔
      ∃ i, j ≤ i ∧ i < j + n ∧
        (e = Event.healthQuery i false ∨ e = Event.sleep 1000) := by
  simp only [failSteps, List.mem_flatMap, List.mem_range'_1]
  constructor
  · rintro ⟨i, ⟨hji, hin⟩, hmem⟩
    refine ⟨i, hji, hin, ?_⟩
    simpa using hmem
  · rintro ⟨i, hji, hin, h⟩
    refine ⟨i, ⟨hji, hin⟩, ?_⟩
    simpa using h

/-- Recognizer for sleep events. -/
def isSleep : Event → Bool
  | Event.sleep _ => true
  | _ => false

/-- Recognizer for factory invocations. -/
def isFactoryCall : Event → Bool
  | Event.factoryCall _ => true
  | _ => false

/-- Recognizer for health queries. -/
def isHealthQuery : Event → Bool
  | Event.healthQuery _ _ => true
  | _ => false

/-- Number of 1-second inter-attempt delays in a trace. -/
def countSleeps (tr : List Event) : Nat := tr.countP isSleep

theorem countSleeps_failSteps (j n : Nat) :
    countSleeps (failSteps j n) = n := by
  induction n generalizing j with
  | zero => rfl
  | succ n ih =>
      have h := ih (j + 1)
      rw [failSteps_succ]
      unfold countSleeps at h ⊢
      rw [List.countP_cons, List.countP_cons, h]
      simp [isSleep]

theorem countP_isFactoryCall_failSteps (j n : Nat) :
    (failSteps j n).countP isFactoryCall = 0 := by
  induction n generalizing j with
  | zero => rfl
  | succ n ih =>
      rw [failSteps_succ, List.countP_cons, List.countP_cons, ih (j + 1)]
      simp [isFactoryCall]

theorem countP_isHealthQuery_failSteps (j n : Nat) :
    (failSteps j n).countP isHealthQuery = n := by
  induction n generalizing j with
  | zero => rfl
  | succ n ih =>
      rw [failSteps_succ, List.countP_cons, List.countP_cons, ih (j + 1)]
      simp [isHealthQuery]

/-! ### Characterization of the polling loop -/

theorem poll_succ_aux (health : Nat → Except String Unit) (T k : Nat)
    (hk : healthOk health k = true) (hT : 1000 * k < T) :
    ∀ n j, j + n = k → (∀ i, j ≤ i → i < k → healthOk health i = false) →
      poll health T (1000 * j) j =
        (failSteps j n ++ [Event.healthQuery k true], true) := by
  intro n
  induction n with
  | zero =>
      intro j hj _
      obtain rfl : j = k := by omega
      rw [poll.eq_def, dif_pos hT]
      split
      · simp [failSteps]
      · rename_i e heq
        rw [healthOk, heq] at hk
        cases hk
  | succ n ih =>
      intro j hj hfail
      have hjk : j < k := by omega
      have hjT : 1000 * j < T := by omega
      rw [poll.eq_def, dif_pos hjT]
      split
      · rename_i u heq
        have hcon := hfail j (Nat.le_refl j) hjk
        rw [healthOk, heq] at hcon
        cases hcon
      · rename_i e heq
        have harg : 1000 * j + 1000 = 1000 * (j + 1) := by ring
        have hrec := ih (j + 1) (by omega)
          (fun i hi1 hi2 => hfail i (by omega) hi2)
        rw [harg, hrec, failSteps_succ]
        simp

theorem poll_fail_aux (health : Nat → Except String Unit) (T A : Nat)
    (hA : ∀ i, 1000 * i < T ↔ i < A)
    (hfail : ∀ i, i < A → healthOk health i = false) :
    ∀ n j, j + n = A → poll health T (1000 * j) j = (failSteps j n, false) := by
  intro n
  induction n with
  | zero =>
      intro j hj
      obtain rfl : j = A := by omega
      have hnot : ¬ 1000 * j < T := by
        rw [hA]
        omega
      rw [poll.eq_def, dif_neg hnot]
      rfl
  | succ n ih =>
      intro j hj
      have hjA : j < A := by omega
      have hjT : 1000 * j < T := (hA j).mpr hjA
      rw [poll.eq_def, dif_pos hjT]
      split
      · rename_i u heq
        have hcon := hfail j hjA
        rw [healthOk, heq] at hcon
        cases hcon
      · rename_i e heq
        have harg : 1000 * j + 1000 = 1000 * (j + 1) := by ring
        rw [harg, ih (j + 1) (by omega), failSteps_succ]

/-- Every run of the polling loop from the start state has one of two
shapes: a block of failed attempts (each followed by a 1 s sleep) ended by
the first successful health query, or a full window of failed attempts and
`healthCheck = false`.  `A` is the number of attempts that fit in the
timeout window. -/
theorem poll_run (health : Nat → Except String Unit) (T A : Nat)
    (hA : ∀ i, 1000 * i < T ↔ i < A) :
    (∃ k, k < A ∧ (∀ i, i < k → healthOk health i = false) ∧
      healthOk health k = true ∧
      poll health T 0 0 = (failSteps 0 k ++ [Event.healthQuery k true], true)) ∨
    ((∀ i, i < A → healthOk health i = false) ∧
      poll health T 0 0 = (failSteps 0 A, false)) := by
  by_cases hex : ∃ k, k < A ∧ healthOk health k = true
  · left
    have hfind := Nat.find_spec hex
    set k := Nat.find hex with hkdef
    refine ⟨k, hfind.1, ?_, hfind.2, ?_⟩
    · intro i hi
      have hmin := Nat.find_min hex hi
      rcases Bool.eq_false_or_eq_true (healthOk health i) with hb | hb
      · exact absurd ⟨by omega, hb⟩ hmin
      · exact hb
    · have := poll_succ_aux health T k hfind.2 ((hA k).mpr hfind.1) k 0 (by omega)
        (fun i _ hi => by
          have hmin := Nat.find_min hex hi
          rcases Bool.eq_false_or_eq_true (healthOk health i) with hb | hb
          · exact absurd ⟨by omega, hb⟩ hmin
          · exact hb)
      simpa using this
  · right
    push_neg at hex
    have hfail : ∀ i, i < A → healthOk health i = false := by
      intro i hi
      rcases Bool.eq_false_or_eq_true (healthOk health i) with hb | hb
      · exact absurd hb (hex i hi)
      · exact hb
    have := poll_fail_aux health T A hA hfail A 0 (by omega)
    exact ⟨hfail, by simpa using this⟩

/-! ### Characterization of `getRunner` -/

/-- The factory selected by the deployment-mode flag. -/
def selectedFactoryKind (w : World) : FactoryKind :=
  if isRender w.env then FactoryKind.RenderRunner else FactoryKind.LocalRunner

/-- The `get` call of the selected factory. -/
def selectedGet (w : World) (runnerId : String) : Except String Runner :=
  if isRender w.env then w.RenderRunner.get runnerId else w.LocalRunner.get runnerId

/-- The timeout budget selected by the deployment-mode flag. -/
def selectedTimeoutMs (w : World) : Nat :=
  if isRender w.env then 90000 else 10000

/-- The number of health-check attempts that fit in the selected timeout
window (one attempt at the start of each second). -/
def selectedAttempts (w : World) : Nat :=
  if isRender w.env then 90 else 10

theorem selectedAttempts_iff (w : World) :
    ∀ i, 1000 * i < selectedTimeoutMs w ↔ i < selectedAttempts w := by
  intro i
  unfold selectedTimeoutMs selectedAttempts
  cases isRender w.env
  · show 1000 * i < 10000 ↔ i < 10
    omega
  · show 1000 * i < 90000 ↔ i < 90
    omega

/-- Every run of `getRunner` has one of three shapes: the selected factory
throws and the failure propagates; the handle becomes healthy at some
attempt `k` inside the window and is returned; or the whole window is
exhausted and the timeout error is thrown. -/
theorem getRunner_run (w : World) (runnerId : String) :
    (∃ e, selectedGet w runnerId = Except.error e ∧
        getRunner w runnerId =
          ([Event.factoryCall (selectedFactoryKind w)],
           Except.error (GetRunnerError.factoryError e))) ∨
    (∃ runner, selectedGet w runnerId = Except.ok runner ∧
      ((∃ k, k < selectedAttempts w ∧
          (∀ i, i < k → healthOk runner.health i = false) ∧
          healthOk runner.health k = true ∧
          getRunner w runnerId =
            (Event.factoryCall (selectedFactoryKind w) ::
               (failSteps 0 k ++ [Event.healthQuery k true]),
             Except.ok runner)) ∨
       ((∀ i, i < selectedAttempts w → healthOk runner.health i = false) ∧
          getRunner w runnerId =
            (Event.factoryCall (selectedFactoryKind w) ::
               failSteps 0 (selectedAttempts w),
             Except.error
               (GetRunnerError.RunnerNotHealthy runnerId (selectedTimeoutMs w)))))) := by
  cases hfac : selectedGet w runnerId with
  | error e =>
      left
      refine ⟨e, rfl, ?_⟩
      unfold selectedGet at hfac
      simp only [getRunner, hfac, selectedFactoryKind]
  | ok runner =>
      right
      refine ⟨runner, rfl, ?_⟩
      rcases poll_run runner.health (selectedTimeoutMs w) (selectedAttempts w)
          (selectedAttempts_iff w) with
        ⟨k, hk, hbefore, hsucc, hpoll⟩ | ⟨hfail, hpoll⟩
      · left
        refine ⟨k, hk, hbefore, hsucc, ?_⟩
        unfold selectedGet at hfac
        unfold selectedTimeoutMs at hpoll
        simp only [getRunner, hfac, hpoll, selectedFactoryKind]
        simp
      · right
        refine ⟨hfail, ?_⟩
        unfold selectedGet at hfac
        unfold selectedTimeoutMs at hpoll
        simp only [getRunner, hfac, hpoll, selectedFactoryKind, selectedTimeoutMs,
          selectedAttempts]
        simp

/-- Recognizer for teardown invocations. -/
def isStop : Event → Bool
  | Event.stop => true
  | _ => false

theorem sleep_mem_failSteps {ms j n : Nat}
    (h : Event.sleep ms ∈ failSteps j n) : ms = 1000 := by
  rcases mem_failSteps.mp h with ⟨i, _, _, hc | hc⟩
  · cases hc
  · injection hc

theorem healthQuery_mem_failSteps {k : Nat} {b : Bool} {j n : Nat}
    (h : Event.healthQuery k b ∈ failSteps j n) :
    j ≤ k ∧ k < j + n ∧ b = false := by
  rcases mem_failSteps.mp h with ⟨i, hji, hin, hc | hc⟩
  · injection hc with h1 h2
    subst h1
    exact ⟨hji, hin, h2⟩
  · cases hc

theorem factoryCall_not_mem_failSteps (f : FactoryKind) (j n : Nat) :
    Event.factoryCall f ∉ failSteps j n := by
  intro h
  rcases mem_failSteps.mp h with ⟨i, _, _, hc | hc⟩ <;> cases hc

theorem countP_isStop_failSteps (j n : Nat) :
    (failSteps j n).countP isStop = 0 := by
  induction n generalizing j with
  | zero => rfl
  | succ n ih =>
      rw [failSteps_succ, List.countP_cons, List.countP_cons, ih (j + 1)]
      simp [isStop]

theorem isRender_iff (env : Env) :
    isRender env = true ↔ env.IS_RENDER = some "true" := by
  simp [isRender]

theorem selectedAttempts_pos (w : World) : 0 < selectedAttempts w := by
  unfold selectedAttempts
  cases isRender w.env
  · show (0:Nat) < 10
    omega
  · show (0:Nat) < 90
    omega

/-- Every `getRunner` trace starts with the single invocation of the
selected factory, followed by polling steps only. -/
theorem getRunner_trace_shape (w : World) (runnerId : String) :
    ∃ rest, (getRunner w runnerId).1 =
        Event.factoryCall (selectedFactoryKind w) :: rest ∧
      ∃ n, n ≤ selectedAttempts w ∧
        (rest = failSteps 0 n ∨
         rest = failSteps 0 n ++ [Event.healthQuery n true]) := by
  rcases getRunner_run w runnerId with ⟨e, hfac, heq⟩ |
    ⟨runner, hfac, ⟨k, hk, hbefore, hsucc, heq⟩ | ⟨hfail, heq⟩⟩
  · exact ⟨[], by rw [heq], 0, Nat.zero_le _, Or.inl rfl⟩
  · exact ⟨failSteps 0 k ++ [Event.healthQuery k true], by rw [heq],
      k, Nat.le_of_lt hk, Or.inr rfl⟩
  · exact ⟨failSteps 0 (selectedAttempts w), by rw [heq],
      selectedAttempts w, Nat.le_refl _, Or.inl rfl⟩

/-! ### The claims -/

/-- Claim C1: for every runner identifier, when `getRunner` returns
successfully, the value it returns is exactly the handle obtained from the
selected factory, and that handle has answered at least one successful
health query before being returned (the successful query is recorded in
the trace). -/
theorem getRunner_returns_factory_handle_after_successful_health
    (w : World) (runnerId : String) (tr : List Event) (r : Runner)
    (h : getRunner w runnerId = (tr, Except.ok r)) :
    selectedGet w runnerId = Except.ok r ∧
    ∃ k, healthOk r.health k = true ∧ Event.healthQuery k true ∈ tr := by
  rcases getRunner_run w runnerId with ⟨e, hfac, heq⟩ |
    ⟨runner, hfac, ⟨k, hk, hbefore, hsucc, heq⟩ | ⟨hfail, heq⟩⟩
  · rw [heq] at h
    simp [Prod.ext_iff] at h
  · rw [heq] at h
    rw [Prod.ext_iff] at h
    obtain ⟨htr, hres⟩ := h
    simp only at htr hres
    obtain rfl : runner = r := by
      injection hres
    refine ⟨hfac, k, hsucc, ?_⟩
    rw [← htr]
    simp
  · rw [heq] at h
    simp [Prod.ext_iff] at h

/-- Witness for claim C1: a healthy local runner is returned and its
successful first health query is in the trace. -/
theorem getRunner_returns_factory_handle_after_successful_health_witness :
    selectedGet wLocalHealthy "runner-1" = Except.ok healthyRunner ∧
    ∃ k, healthOk healthyRunner.health k = true ∧
      Event.healthQuery k true ∈
        [Event.factoryCall FactoryKind.LocalRunner, Event.healthQuery 0 true] :=
  getRunner_returns_factory_handle_after_successful_health wLocalHealthy "runner-1"
    [Event.factoryCall FactoryKind.LocalRunner, Event.healthQuery 0 true]
    healthyRunner
    (by simp [getRunner, wLocalHealthy, isRender, healthyRunner, poll])

/-- Claim C2: every call uses the 90000 ms timeout budget when the
deployment-mode flag selects remote mode and the 10000 ms budget in local
mode, and waits a fixed 1-second interval between consecutive health-check
attempts: the trace after the factory call consists of (failed query,
1000 ms sleep) pairs, optionally ended by the first successful query; every
attempt falls inside the selected budget, and a timeout failure reports
exactly the selected budget. -/
theorem getRunner_timeout_budget_and_interval (w : World) (runnerId : String) :
    selectedTimeoutMs w = (if isRender w.env then 90000 else 10000) ∧
    1000 * selectedAttempts w = selectedTimeoutMs w ∧
    (∃ n, (getRunner w runnerId).1 =
        Event.factoryCall (selectedFactoryKind w) :: failSteps 0 n ∨
      (getRunner w runnerId).1 =
        Event.factoryCall (selectedFactoryKind w) ::
          (failSteps 0 n ++ [Event.healthQuery n true])) ∧
    (∀ ms, Event.sleep ms ∈ (getRunner w runnerId).1 → ms = 1000) ∧
    (∀ k b, Event.healthQuery k b ∈ (getRunner w runnerId).1 →
      1000 * k < selectedTimeoutMs w) ∧
    (∀ T, (getRunner w runnerId).2 =
        Except.error (GetRunnerError.RunnerNotHealthy runnerId T) →
      T = selectedTimeoutMs w) := by
  have hba : 1000 * selectedAttempts w = selectedTimeoutMs w := by
    unfold selectedAttempts selectedTimeoutMs
    cases isRender w.env
    · show 1000 * 10 = 10000
      norm_num
    · show 1000 * 90 = 90000
      norm_num
  have hwin : ∀ k, k < selectedAttempts w → 1000 * k < selectedTimeoutMs w :=
    fun k h => (selectedAttempts_iff w k).mpr h
  rcases getRunner_run w runnerId with ⟨e, hfac, heq⟩ |
    ⟨runner, hfac, ⟨k, hk, hb, hs, heq⟩ | ⟨hf, heq⟩⟩
  · refine ⟨rfl, hba, ⟨0, Or.inl (by rw [heq]; rfl)⟩, ?_, ?_, ?_⟩
    · intro ms hms
      rw [heq] at hms
      simp at hms
    · intro k b hkmem
      rw [heq] at hkmem
      simp at hkmem
    · intro T hT
      rw [heq] at hT
      simp at hT
  · refine ⟨rfl, hba, ⟨k, Or.inr (by rw [heq])⟩, ?_, ?_, ?_⟩
    · intro ms hms
      rw [heq] at hms
      simp only [List.mem_cons, List.mem_append] at hms
      rcases hms with hc | hc | hc | hc
      · cases hc
      · exact sleep_mem_failSteps hc
      · cases hc
      · cases hc
    · intro k2 b hkmem
      rw [heq] at hkmem
      simp only [List.mem_cons, List.mem_append] at hkmem
      rcases hkmem with hc | hc | hc | hc
      · cases hc
      · obtain ⟨-, hlt, -⟩ := healthQuery_mem_failSteps hc
        exact hwin k2 (by omega)
      · injection hc with h1 h2
        subst h1
        exact hwin k2 hk
      · cases hc
    · intro T hT
      rw [heq] at hT
      simp at hT
  · refine ⟨rfl, hba,
      ⟨selectedAttempts w, Or.inl (by rw [heq])⟩, ?_, ?_, ?_⟩
    · intro ms hms
      rw [heq] at hms
      simp only [List.mem_cons] at hms
      rcases hms with hc | hc
      · cases hc
      · exact sleep_mem_failSteps hc
    · intro k2 b hkmem
      rw [heq] at hkmem
      simp only [List.mem_cons] at hkmem
      rcases hkmem with hc | hc
      · cases hc
      · obtain ⟨-, hlt, -⟩ := healthQuery_mem_failSteps hc
        exact hwin k2 (by omega)
    · intro T hT
      rw [heq] at hT
      simp at hT
      exact hT.symm

/-- Witness for claim C2: the timing facts instantiated at a concrete
local-mode world. -/
theorem getRunner_timeout_budget_and_interval_witness :
    selectedTimeoutMs wLocalLate =
      (if isRender wLocalLate.env then 90000 else 10000) ∧
    1000 * selectedAttempts wLocalLate = selectedTimeoutMs wLocalLate ∧
    (∃ n, (getRunner wLocalLate "runner-1").1 =
        Event.factoryCall (selectedFactoryKind wLocalLate) :: failSteps 0 n ∨
      (getRunner wLocalLate "runner-1").1 =
        Event.factoryCall (selectedFactoryKind wLocalLate) ::
          (failSteps 0 n ++ [Event.healthQuery n true])) ∧
    (∀ ms, Event.sleep ms ∈ (getRunner wLocalLate "runner-1").1 → ms = 1000) ∧
    (∀ k b, Event.healthQuery k b ∈ (getRunner wLocalLate "runner-1").1 →
      1000 * k < selectedTimeoutMs wLocalLate) ∧
    (∀ T, (getRunner wLocalLate "runner-1").2 =
        Except.error (GetRunnerError.RunnerNotHealthy "runner-1" T) →
      T = selectedTimeoutMs wLocalLate) :=
  getRunner_timeout_budget_and_interval wLocalLate "runner-1"

/-- Claim C3: every call invokes exactly one factory: the remote one when
the deployment-mode flag is set, otherwise the local one; the non-selected
factory is never invoked during that call. -/
theorem getRunner_invokes_exactly_selected_factory
    (w : World) (runnerId : String) :
    (getRunner w runnerId).1.countP isFactoryCall = 1 ∧
    Event.factoryCall (selectedFactoryKind w) ∈ (getRunner w runnerId).1 ∧
    (∀ f, Event.factoryCall f ∈ (getRunner w runnerId).1 →
      f = selectedFactoryKind w) ∧
    (isRender w.env = true →
      selectedFactoryKind w = FactoryKind.RenderRunner) ∧
    (isRender w.env = false →
      selectedFactoryKind w = FactoryKind.LocalRunner) := by
  obtain ⟨rest, htr, n, hn, hrest⟩ := getRunner_trace_shape w runnerId
  have hnotmem : ∀ f, Event.factoryCall f ∉ rest := by
    intro f hm
    rcases hrest with h | h
    · exact factoryCall_not_mem_failSteps f 0 n (h ▸ hm)
    · rw [h] at hm
      rcases List.mem_append.mp hm with hm2 | hm2
      · exact factoryCall_not_mem_failSteps f 0 n hm2
      · rcases List.mem_cons.mp hm2 with hc | hc
        · cases hc
        · cases hc
  have hcount : rest.countP isFactoryCall = 0 := by
    rcases hrest with h | h
    · rw [h]
      exact countP_isFactoryCall_failSteps 0 n
    · rw [h, List.countP_append, countP_isFactoryCall_failSteps 0 n]
      rfl
  refine ⟨?_, ?_, ?_, ?_, ?_⟩
  · rw [htr, List.countP_cons, hcount]
    simp [isFactoryCall]
  · rw [htr]
    exact List.mem_cons_self _ _
  · intro f hf
    rw [htr] at hf
    rcases List.mem_cons.mp hf with hc | hc
    · injection hc
    · exact absurd hc (hnotmem f)
  · intro hR
    unfold selectedFactoryKind
    rw [hR]
    rfl
  · intro hR
    unfold selectedFactoryKind
    rw [hR]
    rfl

/-- Witness for claim C3: the factory-exclusivity facts at a concrete
render-mode world. -/
theorem getRunner_invokes_exactly_selected_factory_witness :
    (getRunner wRenderHealthy "runner-1").1.countP isFactoryCall = 1 ∧
    Event.factoryCall (selectedFactoryKind wRenderHealthy) ∈
      (getRunner wRenderHealthy "runner-1").1 ∧
    (∀ f, Event.factoryCall f ∈ (getRunner wRenderHealthy "runner-1").1 →
      f = selectedFactoryKind wRenderHealthy) ∧
    (isRender wRenderHealthy.env = true →
      selectedFactoryKind wRenderHealthy = FactoryKind.RenderRunner) ∧
    (isRender wRenderHealthy.env = false →
      selectedFactoryKind wRenderHealthy = FactoryKind.LocalRunner) :=
  getRunner_invokes_exactly_selected_factory wRenderHealthy "runner-1"

/-- Claim C4: when the handle never answers a successful health query
inside the timeout window, `getRunner` fails with the single
runner-not-healthy error kind carrying both the runner identifier and the
timeout value in milliseconds, and the handle is not returned. -/
theorem getRunner_timeout_error_carries_id_and_timeout
    (w : World) (runnerId : String) (runner : Runner)
    (hfac : selectedGet w runnerId = Except.ok runner)
    (hnever : ∀ k, 1000 * k < selectedTimeoutMs w →
      healthOk runner.health k = false) :
    (getRunner w runnerId).2 =
      Except.error
        (GetRunnerError.RunnerNotHealthy runnerId (selectedTimeoutMs w)) ∧
    ∀ r, (getRunner w runnerId).2 ≠ Except.ok r := by
  rcases getRunner_run w runnerId with ⟨e, hfac2, heq⟩ |
    ⟨runner2, hfac2, ⟨k, hk, hb, hs, heq⟩ | ⟨hf, heq⟩⟩
  · rw [hfac] at hfac2
    simp at hfac2
  · rw [hfac] at hfac2
    obtain rfl : runner = runner2 := by injection hfac2
    have hcon := hnever k ((selectedAttempts_iff w k).mpr hk)
    rw [hs] at hcon
    cases hcon
  · rw [heq]
    refine ⟨rfl, ?_⟩
    intro r h
    simp at h

/-- Witness for claim C4: a never-healthy local runner yields the
runner-not-healthy error and no handle. -/
theorem getRunner_timeout_error_carries_id_and_timeout_witness :
    (getRunner wLocalUnhealthy "runner-1").2 =
      Except.error
        (GetRunnerError.RunnerNotHealthy "runner-1"
          (selectedTimeoutMs wLocalUnhealthy)) ∧
    ∀ r, (getRunner wLocalUnhealthy "runner-1").2 ≠ Except.ok r :=
  getRunner_timeout_error_carries_id_and_timeout wLocalUnhealthy "runner-1"
    unhealthyRunner rfl (fun _ _ => rfl)

/-- Number of attempts that fit in an arbitrary timeout window. -/
def attemptsIn (T : Nat) : Nat := (T + 999) / 1000

theorem attemptsIn_iff (T : Nat) : ∀ i, 1000 * i < T ↔ i < attemptsIn T := by
  intro i
  unfold attemptsIn
  omega

/-- The polling loop depends only on which health queries succeed, not on
the error payloads of the failed ones: any rejection is treated uniformly
as not-yet-healthy. -/
theorem poll_healthOk_congr (health1 health2 : Nat → Except String Unit)
    (hh : ∀ i, healthOk health1 i = healthOk health2 i) (T : Nat) :
    poll health1 T 0 0 = poll health2 T 0 0 := by
  rcases poll_run health1 T (attemptsIn T) (attemptsIn_iff T) with
    ⟨k, hk, hb, hs, hp⟩ | ⟨hf, hp⟩
  · have hp2 := poll_succ_aux health2 T k (by rw [← hh k]; exact hs)
      ((attemptsIn_iff T k).mpr hk) k 0 (by omega)
      (fun i _ hi => by rw [← hh i]; exact hb i hi)
    have hp2n : poll health2 T 0 0 =
        (failSteps 0 k ++ [Event.healthQuery k true], true) := by
      simpa using hp2
    rw [hp, hp2n]
  · have hp2 := poll_fail_aux health2 T (attemptsIn T) (attemptsIn_iff T)
      (fun i hi => by rw [← hh i]; exact hf i hi) (attemptsIn T) 0 (by omega)
    have hp2n : poll health2 T 0 0 = (failSteps 0 (attemptsIn T), false) := by
      simpa using hp2
    rw [hp, hp2n]

/-- Claim C5: errors raised by individual health queries are swallowed and
treated as not-yet-healthy: the only errors `getRunner` can surface are the
propagated factory failure and the timeout-exhaustion error (never a
health-query error), and the polling loop is insensitive to the error
payloads of rejected health queries. -/
theorem getRunner_swallows_health_errors (w : World) (runnerId : String) :
    (∀ e, (getRunner w runnerId).2 = Except.error e →
      (∃ msg, selectedGet w runnerId = Except.error msg ∧
        e = GetRunnerError.factoryError msg) ∨
      e = GetRunnerError.RunnerNotHealthy runnerId (selectedTimeoutMs w)) ∧
    (∀ health1 health2 : Nat → Except String Unit,
      (∀ i, healthOk health1 i = healthOk health2 i) →
      ∀ T, poll health1 T 0 0 = poll health2 T 0 0) := by
  constructor
  · intro e he
    rcases getRunner_run w runnerId with ⟨msg, hfac, heq⟩ |
      ⟨runner, hfac, ⟨k, hk, hb, hs, heq⟩ | ⟨hf, heq⟩⟩
    · rw [heq] at he
      simp at he
      exact Or.inl ⟨msg, hfac, he.symm⟩
    · rw [heq] at he
      simp at he
    · rw [heq] at he
      simp at he
      exact Or.inr (by rw [← he])
  · intro health1 health2 hh T
    exact poll_healthOk_congr health1 health2 hh T

/-- Witness for claim C5: the swallowing facts at a concrete world whose
runner rejects its first two health queries. -/
theorem getRunner_swallows_health_errors_witness :
    (∀ e, (getRunner wLocalLate "runner-1").2 = Except.error e →
      (∃ msg, selectedGet wLocalLate "runner-1" = Except.error msg ∧
        e = GetRunnerError.factoryError msg) ∨
      e = GetRunnerError.RunnerNotHealthy "runner-1"
            (selectedTimeoutMs wLocalLate)) ∧
    (∀ health1 health2 : Nat → Except String Unit,
      (∀ i, healthOk health1 i = healthOk health2 i) →
      ∀ T, poll health1 T 0 0 = poll health2 T 0 0) :=
  getRunner_swallows_health_errors wLocalLate "runner-1"

/-- Claim C6: a handle whose first health query succeeds is returned within
one polling cycle, with no inter-attempt delay at all. -/
theorem getRunner_immediate_health_no_sleep
    (w : World) (runnerId : String) (runner : Runner)
    (hfac : selectedGet w runnerId = Except.ok runner)
    (h0 : healthOk runner.health 0 = true) :
    getRunner w runnerId =
      ([Event.factoryCall (selectedFactoryKind w), Event.healthQuery 0 true],
       Except.ok runner) ∧
    countSleeps (getRunner w runnerId).1 = 0 := by
  rcases getRunner_run w runnerId with ⟨e, hfac2, heq⟩ |
    ⟨runner2, hfac2, ⟨k, hk, hb, hs, heq⟩ | ⟨hf, heq⟩⟩
  · rw [hfac] at hfac2
    simp at hfac2
  · rw [hfac] at hfac2
    obtain rfl : runner = runner2 := by injection hfac2
    obtain rfl : k = 0 := by
      by_contra hne
      have hcon := hb 0 (Nat.pos_of_ne_zero hne)
      rw [h0] at hcon
      cases hcon
    refine ⟨by rw [heq]; rfl, ?_⟩
    rw [heq]
    rfl
  · rw [hfac] at hfac2
    obtain rfl : runner = runner2 := by injection hfac2
    have hcon := hf 0 (selectedAttempts_pos w)
    rw [h0] at hcon
    cases hcon

/-- Witness for claim C6: an immediately-healthy local runner is returned
with zero sleeps. -/
theorem getRunner_immediate_health_no_sleep_witness :
    getRunner wLocalHealthy "runner-1" =
      ([Event.factoryCall (selectedFactoryKind wLocalHealthy),
        Event.healthQuery 0 true],
       Except.ok healthyRunner) ∧
    countSleeps (getRunner wLocalHealthy "runner-1").1 = 0 :=
  getRunner_immediate_health_no_sleep wLocalHealthy "runner-1" healthyRunner
    rfl rfl

/-- Claim C7: when the health query first succeeds on the Nth attempt and
N seconds fit strictly inside the timeout budget, `getRunner` returns the
handle after N − 1 one-second inter-attempt delays — within one polling
interval of N seconds, which is what the specification calls approximately
N seconds. -/
theorem getRunner_nth_attempt_sleep_count
    (w : World) (runnerId : String) (runner : Runner) (N : Nat)
    (hfac : selectedGet w runnerId = Except.ok runner)
    (hN : 1 ≤ N)
    (hbefore : ∀ i, i < N - 1 → healthOk runner.health i = false)
    (hsucc : healthOk runner.health (N - 1) = true)
    (hbudget : 1000 * N < selectedTimeoutMs w) :
    (getRunner w runnerId).2 = Except.ok runner ∧
    countSleeps (getRunner w runnerId).1 = N - 1 ∧
    countSleeps (getRunner w runnerId).1 + 1 = N := by
  have hNA : N - 1 < selectedAttempts w := by
    have := (selectedAttempts_iff w N).mp hbudget
    omega
  rcases getRunner_run w runnerId with ⟨e, hfac2, heq⟩ |
    ⟨runner2, hfac2, ⟨k, hk, hb, hs, heq⟩ | ⟨hf, heq⟩⟩
  · rw [hfac] at hfac2
    simp at hfac2
  · rw [hfac] at hfac2
    obtain rfl : runner = runner2 := by injection hfac2
    obtain rfl : k = N - 1 := by
      rcases Nat.lt_trichotomy k (N - 1) with hlt | heqk | hgt
      · have hcon := hbefore k hlt
        rw [hs] at hcon
        cases hcon
      · exact heqk
      · have hcon := hb (N - 1) hgt
        rw [hsucc] at hcon
        cases hcon
    have hcount : countSleeps (getRunner w runnerId).1 = N - 1 := by
      rw [heq]
      show countSleeps (Event.factoryCall (selectedFactoryKind w) ::
        (failSteps 0 (N - 1) ++ [Event.healthQuery (N - 1) true])) = N - 1
      have hfs := countSleeps_failSteps 0 (N - 1)
      unfold countSleeps at hfs ⊢
      rw [List.countP_cons, List.countP_append, hfs]
      simp [isSleep]
    exact ⟨by rw [heq], hcount, by omega⟩
  · rw [hfac] at hfac2
    obtain rfl : runner = runner2 := by injection hfac2
    have hcon := hf (N - 1) hNA
    rw [hsucc] at hcon
    cases hcon

/-- Witness for claim C7: a runner first healthy on the third attempt is
returned after exactly two one-second delays. -/
theorem getRunner_nth_attempt_sleep_count_witness :
    (getRunner wLocalLate "runner-1").2 = Except.ok lateRunner ∧
    countSleeps (getRunner wLocalLate "runner-1").1 = 3 - 1 ∧
    countSleeps (getRunner wLocalLate "runner-1").1 + 1 = 3 :=
  getRunner_nth_attempt_sleep_count wLocalLate "runner-1" lateRunner 3
    rfl (by omega)
    (by
      intro i hi
      norm_num at hi
      interval_cases i <;> decide)
    (by decide) (by decide)

/-- Claim C8: when the `get` call of the selected factory fails, that failure
propagates directly and unchanged to the caller: no health query is
attempted, no inter-attempt delay is performed, and the runner-not-healthy
error is not raised. -/
theorem getRunner_factory_failure_propagates
    (w : World) (runnerId : String) (e : String)
    (hfac : selectedGet w runnerId = Except.error e) :
    getRunner w runnerId =
      ([Event.factoryCall (selectedFactoryKind w)],
       Except.error (GetRunnerError.factoryError e)) ∧
    (getRunner w runnerId).1.countP isHealthQuery = 0 ∧
    countSleeps (getRunner w runnerId).1 = 0 ∧
    ∀ T, (getRunner w runnerId).2 ≠
      Except.error (GetRunnerError.RunnerNotHealthy runnerId T) := by
  rcases getRunner_run w runnerId with ⟨e2, hfac2, heq⟩ |
    ⟨runner2, hfac2, hrest⟩
  · rw [hfac] at hfac2
    obtain rfl : e = e2 := by injection hfac2
    refine ⟨heq, ?_, ?_, ?_⟩
    · rw [heq]
      rfl
    · rw [heq]
      rfl
    · intro T hT
      rw [heq] at hT
      simp at hT
  · rw [hfac] at hfac2
    simp at hfac2

/-- Witness for claim C8: a throwing local factory propagates its error
without any polling. -/
theorem getRunner_factory_failure_propagates_witness :
    getRunner wLocalFactoryFails "runner-1" =
      ([Event.factoryCall (selectedFactoryKind wLocalFactoryFails)],
       Except.error (GetRunnerError.factoryError "spawn failed")) ∧
    (getRunner wLocalFactoryFails "runner-1").1.countP isHealthQuery = 0 ∧
    countSleeps (getRunner wLocalFactoryFails "runner-1").1 = 0 ∧
    ∀ T, (getRunner wLocalFactoryFails "runner-1").2 ≠
      Except.error (GetRunnerError.RunnerNotHealthy "runner-1" T) :=
  getRunner_factory_failure_propagates wLocalFactoryFails "runner-1"
    "spawn failed" rfl

/-- Claim C9: no run of `getRunner` — successful or not — ever invokes the
handle teardown capability `stop`: the trace contains no teardown event. -/
theorem getRunner_never_invokes_stop (w : World) (runnerId : String) :
    (getRunner w runnerId).1.countP isStop = 0 := by
  obtain ⟨rest, htr, n, hn, hrest⟩ := getRunner_trace_shape w runnerId
  have h0 : rest.countP isStop = 0 := by
    rcases hrest with h | h
    · rw [h]
      exact countP_isStop_failSteps 0 n
    · rw [h, List.countP_append, countP_isStop_failSteps 0 n]
      rfl
  rw [htr, List.countP_cons, h0]
  simp [isStop]

theorem factoryCall_mem_getRunner_iff (w : World) (runnerId : String)
    (f : FactoryKind) :
    Event.factoryCall f ∈ (getRunner w runnerId).1 ↔
      f = selectedFactoryKind w := by
  obtain ⟨rest, htr, n, hn, hrest⟩ := getRunner_trace_shape w runnerId
  have hnm : Event.factoryCall f ∉ rest := by
    intro hm
    rcases hrest with h | h
    · exact factoryCall_not_mem_failSteps f 0 n (h ▸ hm)
    · rw [h] at hm
      rcases List.mem_append.mp hm with hm2 | hm2
      · exact factoryCall_not_mem_failSteps f 0 n hm2
      · rcases List.mem_cons.mp hm2 with hc | hc
        · cases hc
        · cases hc
  rw [htr]
  constructor
  · intro hmem
    rcases List.mem_cons.mp hmem with hc | hc
    · injection hc with h1
    · exact absurd hc hnm
  · rintro rfl
    exact List.mem_cons_self _ _

theorem selectedFactoryKind_eq_render_iff (w : World) :
    selectedFactoryKind w = FactoryKind.RenderRunner ↔
      isRender w.env = true := by
  unfold selectedFactoryKind
  cases isRender w.env <;> simp

theorem selectedFactoryKind_eq_local_iff (w : World) :
    selectedFactoryKind w = FactoryKind.LocalRunner ↔
      isRender w.env = false := by
  unfold selectedFactoryKind
  cases isRender w.env <;> simp

/-- Claim C10: remote mode is selected exactly when `IS_RENDER` equals the
string "true" (values such as "TRUE", "1" or an unset variable select local
mode), and the chosen factory and chosen timeout budget are always
consistent: a timeout failure reports 90000 ms exactly when the remote
factory was the one invoked, and 10000 ms exactly when the local factory
was. -/
theorem getRunner_is_render_flag_consistency (w : World) (runnerId : String) :
    (isRender w.env = true ↔ w.env.IS_RENDER = some "true") ∧
    isRender { IS_RENDER := some "TRUE" } = false ∧
    isRender { IS_RENDER := some "1" } = false ∧
    isRender { IS_RENDER := none } = false ∧
    (Event.factoryCall FactoryKind.RenderRunner ∈ (getRunner w runnerId).1 ↔
      w.env.IS_RENDER = some "true") ∧
    (Event.factoryCall FactoryKind.LocalRunner ∈ (getRunner w runnerId).1 ↔
      ¬ w.env.IS_RENDER = some "true") ∧
    (∀ T, (getRunner w runnerId).2 =
        Except.error (GetRunnerError.RunnerNotHealthy runnerId T) →
      ((T = 90000 ∧ Event.factoryCall FactoryKind.RenderRunner ∈
          (getRunner w runnerId).1) ∨
       (T = 10000 ∧ Event.factoryCall FactoryKind.LocalRunner ∈
          (getRunner w runnerId).1))) := by
  have hrmem : Event.factoryCall FactoryKind.RenderRunner ∈
      (getRunner w runnerId).1 ↔ w.env.IS_RENDER = some "true" := by
    rw [factoryCall_mem_getRunner_iff, eq_comm,
      selectedFactoryKind_eq_render_iff, isRender_iff]
  have hlmem : Event.factoryCall FactoryKind.LocalRunner ∈
      (getRunner w runnerId).1 ↔ ¬ w.env.IS_RENDER = some "true" := by
    rw [factoryCall_mem_getRunner_iff, eq_comm,
      selectedFactoryKind_eq_local_iff]
    rw [← isRender_iff]
    cases isRender w.env <;> simp
  refine ⟨isRender_iff w.env, by decide, by decide, by decide,
    hrmem, hlmem, ?_⟩
  intro T hT
  have hTsel : T = selectedTimeoutMs w := by
    rcases getRunner_run w runnerId with ⟨e, hfac, heq⟩ |
      ⟨runner, hfac, ⟨k, hk, hb, hs, heq⟩ | ⟨hf, heq⟩⟩
    · rw [heq] at hT
      simp at hT
    · rw [heq] at hT
      simp at hT
    · rw [heq] at hT
      simp at hT
      exact hT.symm
  subst hTsel
  cases hR : isRender w.env
  · right
    constructor
    · unfold selectedTimeoutMs
      rw [hR]
      rfl
    · rw [hlmem, ← isRender_iff, hR]
      simp
  · left
    constructor
    · unfold selectedTimeoutMs
      rw [hR]
      rfl
    · rw [hrmem, ← isRender_iff]
      exact hR

/-- Witness for claim C10: the flag and consistency facts at a concrete
render-mode world. -/
theorem getRunner_is_render_flag_consistency_witness :
    (isRender wRenderHealthy.env = true ↔
      wRenderHealthy.env.IS_RENDER = some "true") ∧
    isRender { IS_RENDER := some "TRUE" } = false ∧
    isRender { IS_RENDER := some "1" } = false ∧
    isRender { IS_RENDER := none } = false ∧
    (Event.factoryCall FactoryKind.RenderRunner ∈
        (getRunner wRenderHealthy "runner-1").1 ↔
      wRenderHealthy.env.IS_RENDER = some "true") ∧
    (Event.factoryCall FactoryKind.LocalRunner ∈
        (getRunner wRenderHealthy "runner-1").1 ↔
      ¬ wRenderHealthy.env.IS_RENDER = some "true") ∧
    (∀ T, (getRunner wRenderHealthy "runner-1").2 =
        Except.error (GetRunnerError.RunnerNotHealthy "runner-1" T) →
      ((T = 90000 ∧ Event.factoryCall FactoryKind.RenderRunner ∈
          (getRunner wRenderHealthy "runner-1").1) ∨
       (T = 10000 ∧ Event.factoryCall FactoryKind.LocalRunner ∈
          (getRunner wRenderHealthy "runner-1").1))) :=
  getRunner_is_render_flag_consistency wRenderHealthy "runner-1"

end NangoRunner
